import Mathlib

/-!
Shallow embedding of scripts/generate_icons.py.

The script manually builds a minimal PNG byte stream (signature, IHDR,
IDAT with zlib-compressed raw scanlines, IEND, CRC-32 checksums) for a
solid colour, writes it to disk, and an orchestrator drives it over five
fixed icon sizes.

Bytes are modelled as `List Nat` (each entry a value in [0,255] by
construction); Python integers as `Int`; Python exceptions as
`Except PyErr`; the filesystem side effects of `create_png` as an explicit
list of operations `FsOp` together with a small filesystem semantics `FS`.
External library primitives (zlib, struct, os) are not part of the
repository; they are modelled from their documented specifications, as is
the conforming PNG decoder used to state the output guarantees.
-/

/-- Big-endian 4-byte serialization of a natural number below 2^32, as
produced by `struct.pack` with format char `I` in big-endian mode. -/
def u32be (n : Nat) : List Nat :=
  [n / 16777216 % 256, n / 65536 % 256, n / 256 % 256, n % 256]

/-- Value of a big-endian byte list. -/
def beToNat (l : List Nat) : Nat :=
  l.foldl (fun a b => a * 256 + b) 0

/-- Little-endian 2-byte serialization (deflate stored-block LEN/NLEN fields). -/
def u16le (n : Nat) : List Nat :=
  [n % 256, n / 256 % 256]

/-- One bit step of the reflected CRC-32: shift right, conditionally xor
the reflected polynomial 0xEDB88320. -/
def crcBit (c : Nat) : Nat :=
  if c % 2 = 1 then (c / 2) ^^^ 0xEDB88320 else c / 2

/-- Iterate `crcBit`. -/
def crcBitN : Nat → Nat → Nat
  | 0, c => c
  | n + 1, c => crcBitN n (crcBit c)

/-- Absorb one data byte into the CRC-32 register. -/
def crcByteStep (c b : Nat) : Nat :=
  crcBitN 8 (c ^^^ b)

/-- Modelled from the spec: `zlib.crc32`, the standard CRC-32
(ISO 3309 / ITU-T V.42): reflected polynomial 0xEDB88320, seed
0xFFFFFFFF, final complement.  The zlib library itself is external to the
repository. -/
def crc32 (d : List Nat) : Nat :=
  (d.foldl crcByteStep 0xFFFFFFFF) ^^^ 0xFFFFFFFF

/-- One byte step of the Adler-32 checksum used by the zlib container. -/
def adlerStep (p : Nat × Nat) (c : Nat) : Nat × Nat :=
  ((p.1 + c) % 65521, (p.2 + (p.1 + c) % 65521) % 65521)

/-- Adler-32 checksum of a byte list (RFC 1950). -/
def adler32 (d : List Nat) : Nat :=
  let p := d.foldl adlerStep (1, 0)
  p.2 * 65536 + p.1

/-- One deflate stored (uncompressed) block: header byte (BFINAL bit,
BTYPE = 00), LEN and its ones-complement NLEN little-endian, then the raw
bytes (RFC 1951 section 3.2.4). -/
def mkStored (final : Bool) (c : List Nat) : List Nat :=
  (if final then 1 else 0) :: (u16le c.length ++ u16le (65535 - c.length) ++ c)

/-- Split data into deflate stored blocks of at most 65535 bytes; the
fuel argument dominates the recursion depth. -/
def storedBlocksAux : Nat → List Nat → List Nat
  | 0, _ => []
  | fuel + 1, d =>
    if d.length ≤ 65535 then mkStored true d
    else mkStored false (d.take 65535) ++ storedBlocksAux fuel (d.drop 65535)

/-- Deflate stream consisting solely of stored blocks. -/
def storedBlocks (d : List Nat) : List Nat :=
  storedBlocksAux (d.length + 1) d

/-- Modelled from the spec: `zlib.compress`.  The zlib library is external
to the repository; the spec requires only "a standard zlib-compatible
deflate stream (default compression level acceptable; no custom
dictionary)", so it is modelled as a valid zlib container (RFC 1950
header, deflate stored blocks, Adler-32 trailer). -/
def zlibCompress (d : List Nat) : List Nat :=
  [120, 156] ++ storedBlocks d ++ u32be (adler32 d)

/-- Parse deflate stored blocks: returns the inflated data and the bytes
following the final block.  BTYPE values other than 00 are outside the
profile produced by `zlibCompress` and are rejected. -/
def inflateStored : Nat → List Nat → Option (List Nat × List Nat)
  | 0, _ => none
  | fuel + 1, s =>
    match s with
    | bf :: l0 :: l1 :: n0 :: n1 :: rest =>
      let len := l0 + 256 * l1
      let nlen := n0 + 256 * n1
      if nlen = 65535 - len ∧ len ≤ rest.length then
        if bf = 1 then some (rest.take len, rest.drop len)
        else if bf = 0 then
          match inflateStored fuel (rest.drop len) with
          | some (d2, r2) => some (rest.take len ++ d2, r2)
          | none => none
        else none
      else none
    | _ => none

/-- Modelled from the spec: zlib decompression (RFC 1950): check the
2-byte header (compression method 8, header checksum divisible by 31),
inflate the deflate stream, verify the Adler-32 trailer. -/
def zlibDecompress (s : List Nat) : Option (List Nat) :=
  match s with
  | cmf :: flg :: rest =>
    if cmf % 16 = 8 ∧ (cmf * 256 + flg) % 31 = 0 then
      match inflateStored (rest.length + 1) rest with
      | some (d, tail) => if tail = u32be (adler32 d) then some d else none
      | none => none
    else none
  | _ => none

/-- Python exceptions raised by the primitives the script uses:
`struct.error` from `struct.pack` on an out-of-range value, `ValueError`
from `bytes([...])` on a component outside [0,255]. -/
inductive PyErr where
  | structError
  | valueError
  deriving DecidableEq

instance {ε α : Type} [DecidableEq ε] [DecidableEq α] : DecidableEq (Except ε α) := fun x y =>
  match x, y with
  | Except.ok a, Except.ok b =>
    if h : a = b then isTrue (by rw [h]) else isFalse (by simp [h])
  | Except.error a, Except.error b =>
    if h : a = b then isTrue (by rw [h]) else isFalse (by simp [h])
  | Except.ok _, Except.error _ => isFalse (by simp)
  | Except.error _, Except.ok _ => isFalse (by simp)

/-- Modelled from the spec: `struct.pack` with format char `I`
(big-endian): serializes an integer in [0, 2^32), raising `struct.error`
otherwise. -/
def packU32 (v : Int) : Except PyErr (List Nat) :=
  if 0 ≤ v ∧ v < 4294967296 then Except.ok (u32be v.toNat)
  else Except.error PyErr.structError

/-- Modelled from the spec: a single element of a Python `bytes([...])`
literal: an integer in [0,255], `ValueError` otherwise. -/
def pyByte (v : Int) : Except PyErr Nat :=
  if 0 ≤ v ∧ v < 256 then Except.ok v.toNat
  else Except.error PyErr.valueError

/-- The 8-byte PNG signature `89 50 4E 47 0D 0A 1A 0A` (line 23 of the
script). -/
def pngSignature : List Nat :=
  [137, 80, 78, 71, 13, 10, 26, 10]

/-- The ASCII bytes of the chunk tag `IHDR`. -/
def ihdrType : List Nat := [73, 72, 68, 82]

/-- The ASCII bytes of the chunk tag `IDAT`. -/
def idatType : List Nat := [73, 68, 65, 84]

/-- The ASCII bytes of the chunk tag `IEND`. -/
def iendType : List Nat := [73, 69, 78, 68]

/-- The byte serialization of one PNG chunk: 4-byte big-endian payload
length, chunk-type tag, payload, 4-byte big-endian CRC-32 over
(tag ++ payload).  The `% 4294967296` mirrors the source's
`& 0xffffffff` mask. -/
def chunkBytes (ctype data : List Nat) : List Nat :=
  u32be data.length ++ (ctype ++ (data ++ u32be (crc32 (ctype ++ data) % 4294967296)))

/-- `png_chunk` from the script (lines 17-20): pack the payload length
(which can raise `struct.error` for payloads of 2^32 bytes or more),
append tag, payload and masked CRC-32. -/
def png_chunk (chunk_type data : List Nat) : Except PyErr (List Nat) := do
  let _ ← packU32 (data.length : Int)
  pure (chunkBytes chunk_type data)

/-- The three bytes of one pixel, `bytes([r, g, b])` (line 34 of the
script): raises `ValueError` when a component is outside [0,255]. -/
def pixelBytes (r g b : Int) : Except PyErr (List Nat) := do
  let rb ← pyByte r
  let gb ← pyByte g
  let bb ← pyByte b
  pure [rb, gb, bb]

/-- One scanline of the raw buffer (lines 31-34): a filter byte 0
followed by `width` pixels.  `range(width)` over a non-positive width is
empty, matching `Int.toNat`. -/
def rawRow (w r g b : Int) : Except PyErr (List Nat) := do
  let px ← (List.range w.toNat).mapM (fun _ => pixelBytes r g b)
  pure (0 :: px.flatten)

/-- The raw scanline buffer (lines 30-34): `height` rows concatenated. -/
def rawData (w h r g b : Int) : Except PyErr (List Nat) := do
  let rows ← (List.range h.toNat).mapM (fun _ => rawRow w r g b)
  pure rows.flatten

/-- The byte stream assembled by `create_png` (lines 13-40): signature,
IHDR chunk with payload `>IIBBBBB` = (width, height, 8, 2, 0, 0, 0),
IDAT chunk with the zlib-compressed raw buffer, empty IEND chunk. -/
def buildPng (w h : Int) (rgb : Int × Int × Int) : Except PyErr (List Nat) := do
  let r := rgb.1
  let g := rgb.2.1
  let b := rgb.2.2
  let bw ← packU32 w
  let bh ← packU32 h
  let ihdr_data := bw ++ bh ++ [8, 2, 0, 0, 0]
  let ihdr ← png_chunk ihdrType ihdr_data
  let raw_data ← rawData w h r g b
  let compressed := zlibCompress raw_data
  let idat ← png_chunk idatType compressed
  let iend ← png_chunk iendType []
  pure (pngSignature ++ (ihdr ++ (idat ++ iend)))

/-- A filesystem operation performed by `create_png` (lines 42-46):
`os.makedirs(os.path.dirname(filepath), exist_ok=True)` and the
open/write/close of the PNG bytes.  Paths are modelled as component
lists. -/
inductive FsOp where
  | makedirs (p : List String)
  | write (p : List String) (bytes : List Nat)
  deriving DecidableEq

/-- `create_png` (lines 13-46): build the PNG bytes, then ensure the
destination directory exists and write the file.  An exception raised
while encoding propagates before any filesystem operation happens, so an
error result carries no operations. -/
def create_png (w h : Int) (rgb : Int × Int × Int) (filepath : List String) :
    Except PyErr (List FsOp) := do
  let bytes ← buildPng w h rgb
  pure [FsOp.makedirs filepath.dropLast, FsOp.write filepath bytes]

/-- The teal colour literal `(0, 150, 136)` (line 54 of the script). -/
def teal : Int × Int × Int := (0, 150, 136)

/-- The five icon specifications (lines 57-63), in source order; the
relative destination paths are modelled as component lists of the
`/`-separated literals. -/
def icons : List (Int × List String) :=
  [(48, ["android", "app", "src", "main", "res", "mipmap-mdpi", "ic_launcher.png"]),
   (72, ["android", "app", "src", "main", "res", "mipmap-hdpi", "ic_launcher.png"]),
   (96, ["android", "app", "src", "main", "res", "mipmap-xhdpi", "ic_launcher.png"]),
   (144, ["android", "app", "src", "main", "res", "mipmap-xxhdpi", "ic_launcher.png"]),
   (192, ["android", "app", "src", "main", "res", "mipmap-xxxhdpi", "ic_launcher.png"])]

/-- `main` (lines 48-70): `script_dir = dirname(abspath(__file__))`,
`project_root = dirname(script_dir)` (dropping the last two components of
the script's absolute path), then one `create_png(size, size, teal,
join(project_root, relative_path))` call per icon, in list order.  The
result records, per icon, the size, the resolved path and the encoder
invocation. -/
def mainScript (script_path : List String) :
    List (Int × List String × Except PyErr (List FsOp)) :=
  icons.map fun i =>
    (i.1, script_path.dropLast.dropLast ++ i.2,
      create_png i.1 i.1 teal (script_path.dropLast.dropLast ++ i.2))

/-- A filesystem state: the set of existing directories and the written
files, both keyed by component-list paths. -/
structure FS where
  dirs : List (List String)
  files : List (List String × List Nat)

/-- Modelled from the spec: `os.makedirs(p, exist_ok=True)`: creates the
directory and all missing intermediate directories; an already-existing
directory is not an error; the empty path is rejected. -/
def mkdirsFS (fs : FS) (p : List String) : Option FS :=
  if p = [] then none
  else some ⟨((List.range p.length).map fun k => p.take (k + 1)) ++ fs.dirs, fs.files⟩

/-- Modelled from the spec: `open(p, 'wb')` followed by a full write:
succeeds exactly when the parent directory exists (a top-level path needs
no parent), fully overwriting any previous contents. -/
def writeFS (fs : FS) (p : List String) (bytes : List Nat) : Option FS :=
  if p.dropLast = [] ∨ p.dropLast ∈ fs.dirs then
    some ⟨fs.dirs, (p, bytes) :: fs.files⟩
  else none

/-- Apply one filesystem operation. -/
def runOp (fs : FS) : FsOp → Option FS
  | FsOp.makedirs p => mkdirsFS fs p
  | FsOp.write p bytes => writeFS fs p bytes

/-- Apply a list of filesystem operations in order, stopping at the first
failure. -/
def runOps : FS → List FsOp → Option FS
  | fs, [] => some fs
  | fs, op :: rest =>
    match runOp fs op with
    | some fs2 => runOps fs2 rest
    | none => none

/-- A parsed PNG chunk: type tag, payload, embedded CRC value. -/
structure PngChunk where
  ctype : List Nat
  cdata : List Nat
  ccrc : Nat
  deriving DecidableEq

/-- Read one length-prefixed chunk from the head of a byte stream:
4-byte big-endian length, 4-byte tag, payload, 4-byte CRC; returns the
chunk and the remaining stream. -/
def readChunk (s : List Nat) : Option (PngChunk × List Nat) :=
  if 12 ≤ s.length ∧ 12 + beToNat (s.take 4) ≤ s.length then
    let len := beToNat (s.take 4)
    some (⟨(s.drop 4).take 4, (s.drop 8).take len,
           beToNat ((s.drop (8 + len)).take 4)⟩, s.drop (12 + len))
  else none

/-- Split a byte stream into consecutive chunks; the stream must consist
exactly of whole chunks. -/
def parseChunksAux : Nat → List Nat → Option (List PngChunk)
  | _, [] => some []
  | 0, _ :: _ => none
  | fuel + 1, a :: s0 =>
    match readChunk (a :: s0) with
    | some (c, rest) =>
      match parseChunksAux fuel rest with
      | some cs => some (c :: cs)
      | none => none
    | none => none

/-- Parse a byte stream into its chunk list. -/
def parseChunks (s : List Nat) : Option (List PngChunk) :=
  parseChunksAux (s.length + 1) s

/-- A chunk's embedded CRC matches a freshly computed CRC-32 over
(type ++ payload). -/
def chunkOk (c : PngChunk) : Bool :=
  c.ccrc == crc32 (c.ctype ++ c.cdata)

/-- A decoded pixel: red, green, blue, alpha. -/
abbrev Pix := Nat × Nat × Nat × Nat

/-- Read `w` 3-byte RGB pixels from a defiltered scanline; colour type 2
has no alpha channel, so every pixel is fully opaque (alpha 255). -/
def parsePixels : Nat → List Nat → Option (List Pix × List Nat)
  | 0, s => some ([], s)
  | w + 1, r :: g :: b :: s =>
    match parsePixels w s with
    | some (ps, rest) => some ((r, g, b, 255) :: ps, rest)
    | none => none
  | _ + 1, _ => none

/-- Read `h` scanlines of `w` pixels each from the inflated buffer; each
scanline carries a leading filter-type byte, which must be 0 (None), the
only filter this encoder emits; the buffer must be consumed exactly. -/
def parseRowsAux : Nat → Nat → List Nat → Option (List (List Pix))
  | 0, _, [] => some []
  | 0, _, _ :: _ => none
  | h + 1, w, s =>
    match s with
    | 0 :: s1 =>
      match parsePixels w s1 with
      | some (row, rest) =>
        match parseRowsAux h w rest with
        | some rows => some (row :: rows)
        | none => none
      | none => none
    | _ => none

/-- Modelled from the spec: a conforming PNG decoder for the profile this
encoder emits: verify the 8-byte signature; split into chunks and verify
every embedded CRC-32; require a leading IHDR with 13-byte payload, bit
depth 8, colour type 2 (truecolor without alpha, hence fully opaque
pixels), compression/filter/interlace 0 and nonzero dimensions; require a
trailing zero-length IEND; inflate the concatenated IDAT payloads;
reconstruct the scanlines.  Returns width, height and the pixel rows. -/
def decodePng (s : List Nat) : Option (Nat × Nat × List (List Pix)) :=
  if s.take 8 = pngSignature then
    match parseChunks (s.drop 8) with
    | some chunks =>
      if chunks.all chunkOk then
        match chunks with
        | [] => none
        | ihdrC :: body =>
          if ihdrC.ctype = ihdrType ∧ ihdrC.cdata.length = 13 ∧
             ihdrC.cdata.drop 8 = [8, 2, 0, 0, 0] then
            let w := beToNat (ihdrC.cdata.take 4)
            let h := beToNat ((ihdrC.cdata.drop 4).take 4)
            if w = 0 ∨ h = 0 then none
            else
              match body.getLast? with
              | some iendC =>
                if iendC.ctype = iendType ∧ iendC.cdata = [] ∧
                   body.dropLast ≠ [] ∧
                   body.dropLast.all (fun c => c.ctype == idatType) then
                  match zlibDecompress ((body.dropLast.map PngChunk.cdata).flatten) with
                  | some raw => (parseRowsAux h w raw).map (fun rows => (w, h, rows))
                  | none => none
                else none
              | none => none
          else none
      else none
    | none => none
  else none

/-- The raw scanline buffer of a solid-colour image, as a function of the
byte-level dimensions: `h` rows, each a 0 filter byte followed by `w`
copies of the 3 colour bytes. -/
def solidRaw (w h r g b : Nat) : List Nat :=
  (List.replicate h (0 :: (List.replicate w [r, g, b]).flatten)).flatten

/-! ## Basic byte-level lemmas -/

theorem length_u32be (n : Nat) : (u32be n).length = 4 := rfl

theorem beToNat_u32be (n : Nat) (h : n < 4294967296) : beToNat (u32be n) = n := by
  simp only [beToNat, u32be, List.foldl_cons, List.foldl_nil]
  omega

theorem u32be_bytes_lt (n : Nat) : ∀ b ∈ u32be n, b < 256 := by
  simp only [u32be, List.mem_cons, List.not_mem_nil, or_false]
  rintro b (rfl | rfl | rfl | rfl) <;> omega

theorem crcBit_lt (c : Nat) (h : c < 4294967296) : crcBit c < 4294967296 := by
  unfold crcBit
  split
  · have h1 : c / 2 < 2 ^ 32 := by omega
    have h2 : (0xEDB88320 : Nat) < 2 ^ 32 := by norm_num
    simpa using Nat.xor_lt_two_pow h1 h2
  · omega

theorem crcBitN_lt (n c : Nat) (h : c < 4294967296) : crcBitN n c < 4294967296 := by
  induction n generalizing c with
  | zero => exact h
  | succ m ih => exact ih _ (crcBit_lt c h)

theorem crcByteStep_lt (c b : Nat) (hc : c < 4294967296) (hb : b < 256) :
    crcByteStep c b < 4294967296 := by
  unfold crcByteStep
  apply crcBitN_lt
  have h1 : c < 2 ^ 32 := by omega
  have h2 : b < 2 ^ 32 := by omega
  simpa using Nat.xor_lt_two_pow h1 h2

theorem foldl_crc_lt (d : List Nat) : ∀ c, c < 4294967296 → (∀ b ∈ d, b < 256) →
    d.foldl crcByteStep c < 4294967296 := by
  induction d with
  | nil => intro c hc _; exact hc
  | cons a t ih =>
    intro c hc hd
    simp only [List.foldl_cons]
    exact ih _ (crcByteStep_lt c a hc (hd a (by simp))) (fun b hb => hd b (by simp [hb]))

theorem crc32_lt (d : List Nat) (hd : ∀ b ∈ d, b < 256) : crc32 d < 4294967296 := by
  unfold crc32
  have h1 : d.foldl crcByteStep 0xFFFFFFFF < 2 ^ 32 := by
    simpa using foldl_crc_lt d 0xFFFFFFFF (by norm_num) hd
  have h2 : (0xFFFFFFFF : Nat) < 2 ^ 32 := by norm_num
  simpa using Nat.xor_lt_two_pow h1 h2

/-! ## Except monad helpers -/

theorem ebind_ok {α β : Type} (a : α) (f : α → Except PyErr β) :
    (Except.ok a >>= f) = f a := rfl

theorem ebind_error {α β : Type} (e : PyErr) (f : α → Except PyErr β) :
    ((Except.error e : Except PyErr α) >>= f) = Except.error e := rfl

theorem mapM_const_ok {α β : Type} (l : List α) (x : β) :
    l.mapM (fun _ => (Except.ok x : Except PyErr β)) = Except.ok (l.map fun _ => x) := by
  induction l with
  | nil => rfl
  | cons a t ih => simp only [List.mapM_cons, ih, List.map_cons, ebind_ok]; rfl

theorem mapM_const_error {α β : Type} (l : List α) (e : PyErr) (hl : l ≠ []) :
    l.mapM (fun _ => (Except.error e : Except PyErr β)) = Except.error e := by
  cases l with
  | nil => exact absurd rfl hl
  | cons a t => simp only [List.mapM_cons, ebind_error]

/-! ## Stored-block deflate lemmas -/

theorem length_mkStored (final : Bool) (c : List Nat) :
    (mkStored final c).length = 5 + c.length := by
  simp [mkStored, u16le]
  omega

theorem storedBlocksAux_fuel (f1 : Nat) : ∀ (f2 : Nat) (d : List Nat),
    d.length < f1 → d.length < f2 → storedBlocksAux f1 d = storedBlocksAux f2 d := by
  induction f1 with
  | zero => intro f2 d h1 _; omega
  | succ k ih =>
    intro f2 d h1 h2
    cases f2 with
    | zero => omega
    | succ m =>
      simp only [storedBlocksAux]
      by_cases hle : d.length ≤ 65535
      · rw [if_pos hle, if_pos hle]
      · rw [if_neg hle, if_neg hle]
        have hd : (d.drop 65535).length = d.length - 65535 := List.length_drop 65535 d
        rw [ih m (d.drop 65535) (by omega) (by omega)]

theorem storedBlocks_small (d : List Nat) (h : d.length ≤ 65535) :
    storedBlocks d = mkStored true d := by
  unfold storedBlocks
  simp only [storedBlocksAux]
  rw [if_pos h]

theorem storedBlocks_big (d : List Nat) (h : 65535 < d.length) :
    storedBlocks d = mkStored false (d.take 65535) ++ storedBlocks (d.drop 65535) := by
  unfold storedBlocks
  conv_lhs => rw [storedBlocksAux]
  rw [if_neg (by omega)]
  have hd : (d.drop 65535).length = d.length - 65535 := List.length_drop 65535 d
  rw [storedBlocksAux_fuel d.length ((d.drop 65535).length + 1) (d.drop 65535)
    (by omega) (by omega)]

theorem storedBlocks_length_le : ∀ (n : Nat) (d : List Nat), d.length = n →
    (storedBlocks d).length ≤ d.length + 5 * (d.length / 65535 + 1) := by
  intro n
  induction n using Nat.strong_induction_on with
  | _ n ih =>
    intro d hd
    by_cases hle : d.length ≤ 65535
    · rw [storedBlocks_small d hle, length_mkStored]
      omega
    · rw [storedBlocks_big d (by omega)]
      have h1 : (d.drop 65535).length = d.length - 65535 := List.length_drop 65535 d
      have h2 := ih (d.length - 65535) (by omega) (d.drop 65535) (by omega)
      simp only [List.length_append, length_mkStored, List.length_take]
      omega

theorem storedBlocks_length_ge : ∀ (n : Nat) (d : List Nat), d.length = n →
    d.length ≤ (storedBlocks d).length := by
  intro n
  induction n using Nat.strong_induction_on with
  | _ n ih =>
    intro d hd
    by_cases hle : d.length ≤ 65535
    · rw [storedBlocks_small d hle, length_mkStored]
      omega
    · rw [storedBlocks_big d (by omega)]
      have h1 : (d.drop 65535).length = d.length - 65535 := List.length_drop 65535 d
      have h2 := ih (d.length - 65535) (by omega) (d.drop 65535) (by omega)
      simp only [List.length_append, length_mkStored, List.length_take]
      omega

theorem mkStored_bytes_lt (final : Bool) (c : List Nat) (hc : ∀ b ∈ c, b < 256)
    (_hlen : c.length ≤ 65535) : ∀ b ∈ mkStored final c, b < 256 := by
  intro b hb
  simp only [mkStored, u16le, List.mem_cons, List.mem_append] at hb
  rcases hb with rfl | hb
  · cases final <;> simp
  · rcases hb with (hb | hb) | hb
    · simp only [List.mem_cons, List.not_mem_nil, or_false] at hb
      rcases hb with rfl | rfl <;> omega
    · simp only [List.mem_cons, List.not_mem_nil, or_false] at hb
      rcases hb with rfl | rfl <;> omega
    · exact hc b hb

theorem storedBlocks_bytes_lt : ∀ (n : Nat) (d : List Nat), d.length = n →
    (∀ b ∈ d, b < 256) → ∀ b ∈ storedBlocks d, b < 256 := by
  intro n
  induction n using Nat.strong_induction_on with
  | _ n ih =>
    intro d hd hbytes
    by_cases hle : d.length ≤ 65535
    · rw [storedBlocks_small d hle]
      exact mkStored_bytes_lt true d hbytes hle
    · rw [storedBlocks_big d (by omega)]
      intro b hb
      rcases List.mem_append.mp hb with hb | hb
      · exact mkStored_bytes_lt false (d.take 65535)
          (fun x hx => hbytes x (List.take_subset 65535 d hx))
          (by simp [List.length_take]) b hb
      · have h1 : (d.drop 65535).length = d.length - 65535 := List.length_drop 65535 d
        exact ih (d.length - 65535) (by omega) (d.drop 65535) (by omega)
          (fun x hx => hbytes x (List.drop_subset 65535 d hx)) b hb

theorem zlibCompress_bytes_lt (d : List Nat) (hd : ∀ b ∈ d, b < 256) :
    ∀ b ∈ zlibCompress d, b < 256 := by
  intro b hb
  simp only [zlibCompress, List.mem_append, List.mem_cons, List.not_mem_nil, or_false] at hb
  rcases hb with ((rfl | rfl) | hb) | hb
  · omega
  · omega
  · exact storedBlocks_bytes_lt d.length d rfl hd b hb
  · exact u32be_bytes_lt _ b hb

theorem zlibCompress_length_le (d : List Nat) :
    (zlibCompress d).length ≤ d.length + 5 * (d.length / 65535 + 1) + 6 := by
  have h := storedBlocks_length_le d.length d rfl
  simp only [zlibCompress, List.length_append, List.length_cons, List.length_nil, length_u32be]
  omega

/-! ## Inflate round-trip -/

theorem inflateStored_storedBlocks : ∀ (n : Nat) (d tail : List Nat) (fi : Nat),
    d.length = n → d.length < fi →
    inflateStored fi (storedBlocks d ++ tail) = some (d, tail) := by
  intro n
  induction n using Nat.strong_induction_on with
  | _ n ih =>
    intro d tail fi hd hfi
    cases fi with
    | zero => omega
    | succ k =>
      by_cases hle : d.length ≤ 65535
      · rw [storedBlocks_small d hle]
        have hshape : mkStored true d ++ tail =
            1 :: (d.length % 256 :: (d.length / 256 % 256 ::
              ((65535 - d.length) % 256 :: ((65535 - d.length) / 256 % 256 ::
                (d ++ tail))))) := by
          simp [mkStored, u16le, List.cons_append, List.append_assoc]
        rw [hshape]
        simp only [inflateStored]
        have hlen : d.length % 256 + 256 * (d.length / 256 % 256) = d.length := by omega
        have hnlen : (65535 - d.length) % 256 + 256 * ((65535 - d.length) / 256 % 256) =
            65535 - d.length := by omega
        rw [hlen, hnlen]
        simp [List.take_left' (rfl : d.length = d.length),
              List.drop_left' (rfl : d.length = d.length)]
      · rw [storedBlocks_big d (by omega)]
        have htake : (d.take 65535).length = 65535 := by
          simp [List.length_take]
          omega
        have hdrop : (d.drop 65535).length = d.length - 65535 := List.length_drop 65535 d
        have hshape : (mkStored false (d.take 65535) ++ storedBlocks (d.drop 65535)) ++ tail =
            0 :: (255 :: (255 :: (0 :: (0 ::
              (d.take 65535 ++ (storedBlocks (d.drop 65535) ++ tail)))))) := by
          simp [mkStored, u16le, htake, List.cons_append, List.append_assoc]
        rw [hshape]
        simp only [inflateStored]
        rw [show (255 : Nat) + 256 * 255 = 65535 from by norm_num]
        rw [List.take_left' htake, List.drop_left' htake]
        rw [ih (d.length - 65535) (by omega) (d.drop 65535) tail k (by omega) (by omega)]
        simp [htake, List.length_append, List.take_append_drop]

theorem zlibDecompress_zlibCompress (d : List Nat) :
    zlibDecompress (zlibCompress d) = some d := by
  have hshape : zlibCompress d = 120 :: (156 :: (storedBlocks d ++ u32be (adler32 d))) := by
    simp [zlibCompress, List.cons_append]
  rw [hshape]
  simp only [zlibDecompress]
  rw [if_pos ⟨by norm_num, by norm_num⟩]
  have hge := storedBlocks_length_ge d.length d rfl
  have hlen : (storedBlocks d ++ u32be (adler32 d)).length =
      (storedBlocks d).length + 4 := by simp [List.length_append, length_u32be]
  rw [inflateStored_storedBlocks d.length d (u32be (adler32 d))
    ((storedBlocks d ++ u32be (adler32 d)).length + 1) rfl (by omega)]
  simp

/-! ## Chunk-stream parsing lemmas -/

theorem readChunk_chunkBytes (t d rest : List Nat) (ht : t.length = 4)
    (hd : d.length < 4294967296) :
    readChunk (chunkBytes t d ++ rest) =
      some (⟨t, d, crc32 (t ++ d) % 4294967296⟩, rest) := by
  set c4 := crc32 (t ++ d) % 4294967296 with hc4
  have hs : chunkBytes t d ++ rest =
      u32be d.length ++ (t ++ (d ++ (u32be c4 ++ rest))) := by
    simp [chunkBytes, List.append_assoc, hc4]
  rw [hs]
  set S := u32be d.length ++ (t ++ (d ++ (u32be c4 ++ rest))) with hS
  have h1 : S.take 4 = u32be d.length := List.take_left' (length_u32be _)
  have h2 : S.drop 4 = t ++ (d ++ (u32be c4 ++ rest)) := List.drop_left' (length_u32be _)
  have h3 : S.drop 8 = d ++ (u32be c4 ++ rest) := by
    rw [show (8 : Nat) = 4 + 4 from rfl, ← List.drop_drop, h2]
    exact List.drop_left' ht
  have hbe : beToNat (S.take 4) = d.length := by rw [h1, beToNat_u32be _ hd]
  have h4 : (S.drop 4).take 4 = t := by rw [h2]; exact List.take_left' ht
  have h5 : (S.drop 8).take d.length = d := by rw [h3]; exact List.take_left' rfl
  have h6 : S.drop (8 + d.length) = u32be c4 ++ rest := by
    rw [← List.drop_drop d.length 8 S, h3]
    exact List.drop_left' rfl
  have h7 : (S.drop (8 + d.length)).take 4 = u32be c4 := by
    rw [h6]; exact List.take_left' (length_u32be _)
  have h8 : S.drop (12 + d.length) = rest := by
    rw [show 12 + d.length = 8 + d.length + 4 from by omega,
        ← List.drop_drop 4 (8 + d.length) S, h6]
    exact List.drop_left' (length_u32be _)
  have hslen : S.length = 12 + d.length + rest.length := by
    simp [hS, List.length_append, length_u32be, ht]
    omega
  have hc4lt : c4 < 4294967296 := by
    rw [hc4]; exact Nat.mod_lt _ (by norm_num)
  unfold readChunk
  rw [hbe]
  rw [if_pos ⟨by omega, by omega⟩]
  simp only [h4, h5, h7, h8, beToNat_u32be _ hc4lt]

theorem parseChunksAux_nil (fuel : Nat) : parseChunksAux fuel [] = some [] := by
  cases fuel <;> rfl

theorem parseChunksAux_cons (fuel : Nat) (t d rest : List Nat) (ht : t.length = 4)
    (hd : d.length < 4294967296) :
    parseChunksAux (fuel + 1) (chunkBytes t d ++ rest) =
      match parseChunksAux fuel rest with
      | some cs => some (⟨t, d, crc32 (t ++ d) % 4294967296⟩ :: cs)
      | none => none := by
  obtain ⟨a, s0, hcons⟩ : ∃ a s0, chunkBytes t d ++ rest = a :: s0 := by
    cases hcb : chunkBytes t d ++ rest with
    | nil =>
      exfalso
      have : (chunkBytes t d ++ rest).length = 0 := by rw [hcb]; rfl
      simp [chunkBytes, List.length_append, length_u32be] at this
    | cons a s0 => exact ⟨a, s0, rfl⟩
  rw [hcons]
  simp only [parseChunksAux]
  rw [← hcons, readChunk_chunkBytes t d rest ht hd]

theorem length_chunkBytes (t d : List Nat) (ht : t.length = 4) :
    (chunkBytes t d).length = 12 + d.length := by
  simp [chunkBytes, List.length_append, length_u32be, ht]
  omega

theorem readChunk_rest_length (s : List Nat) (c : PngChunk) (rest : List Nat)
    (h : readChunk s = some (c, rest)) : rest.length + 12 ≤ s.length := by
  unfold readChunk at h
  by_cases hc : 12 ≤ s.length ∧ 12 + beToNat (s.take 4) ≤ s.length
  · rw [if_pos hc] at h
    simp only [Option.some.injEq, Prod.mk.injEq] at h
    obtain ⟨-, hrest⟩ := h
    subst hrest
    have hld := List.length_drop (12 + beToNat (s.take 4)) s
    omega
  · rw [if_neg hc] at h
    exact absurd h (by simp)

theorem parseChunksAux_fuel (f1 : Nat) : ∀ (f2 : Nat) (s : List Nat),
    s.length < f1 → s.length < f2 → parseChunksAux f1 s = parseChunksAux f2 s := by
  induction f1 with
  | zero => intro f2 s h1 _; omega
  | succ k ih =>
    intro f2 s h1 h2
    cases s with
    | nil => rw [parseChunksAux_nil, parseChunksAux_nil]
    | cons a s0 =>
      cases f2 with
      | zero => omega
      | succ m =>
        simp only [parseChunksAux]
        cases hrc : readChunk (a :: s0) with
        | none => rfl
        | some cr =>
          obtain ⟨c, rest⟩ := cr
          have hr := readChunk_rest_length (a :: s0) c rest hrc
          simp only [List.length_cons] at hr h1 h2
          show (match parseChunksAux k rest with
                | some cs => some (c :: cs)
                | none => none) =
              (match parseChunksAux m rest with
                | some cs => some (c :: cs)
                | none => none)
          rw [ih m rest (by omega) (by omega)]

theorem parseChunks_three (t1 d1 t2 d2 t3 d3 : List Nat)
    (ht1 : t1.length = 4) (ht2 : t2.length = 4) (ht3 : t3.length = 4)
    (hd1 : d1.length < 4294967296) (hd2 : d2.length < 4294967296)
    (hd3 : d3.length < 4294967296) :
    parseChunks (chunkBytes t1 d1 ++ (chunkBytes t2 d2 ++ chunkBytes t3 d3)) =
      some [⟨t1, d1, crc32 (t1 ++ d1) % 4294967296⟩,
            ⟨t2, d2, crc32 (t2 ++ d2) % 4294967296⟩,
            ⟨t3, d3, crc32 (t3 ++ d3) % 4294967296⟩] := by
  have hl1 := length_chunkBytes t1 d1 ht1
  have hl2 := length_chunkBytes t2 d2 ht2
  have hl3 := length_chunkBytes t3 d3 ht3
  unfold parseChunks
  rw [parseChunksAux_cons _ t1 d1 _ ht1 hd1]
  rw [parseChunksAux_fuel _ ((chunkBytes t2 d2 ++ chunkBytes t3 d3).length + 1) _
    (by simp only [List.length_append]; omega) (by omega)]
  rw [parseChunksAux_cons _ t2 d2 _ ht2 hd2]
  rw [parseChunksAux_fuel _ ((chunkBytes t3 d3).length + 1) _
    (by simp only [List.length_append]; omega) (by omega)]
  rw [← List.append_nil (chunkBytes t3 d3), parseChunksAux_cons _ t3 d3 _ ht3 hd3,
    parseChunksAux_nil]

/-! ## Raw scanline buffer characterization -/

theorem solidRaw_length (w h r g b : Nat) :
    (solidRaw w h r g b).length = h * (1 + 3 * w) := by
  simp [solidRaw, List.length_flatten, List.map_replicate, List.sum_replicate, smul_eq_mul]
  omega

theorem solidRaw_bytes_lt (w h r g b : Nat) (hr : r < 256) (hg : g < 256) (hb : b < 256) :
    ∀ x ∈ solidRaw w h r g b, x < 256 := by
  intro x hx
  simp only [solidRaw] at hx
  rcases List.mem_flatten.mp hx with ⟨l, hl, hxl⟩
  rw [List.eq_of_mem_replicate hl] at hxl
  rcases List.mem_cons.mp hxl with rfl | hxl2
  · omega
  · rcases List.mem_flatten.mp hxl2 with ⟨l2, hl2, hxl3⟩
    rw [List.eq_of_mem_replicate hl2] at hxl3
    simp only [List.mem_cons, List.not_mem_nil, or_false] at hxl3
    rcases hxl3 with rfl | rfl | rfl <;> omega

theorem packU32_ok (v : Int) (h1 : 0 ≤ v) (h2 : v < 4294967296) :
    packU32 v = Except.ok (u32be v.toNat) := by
  unfold packU32
  rw [if_pos ⟨h1, h2⟩]

theorem pyByte_ok (v : Int) (h1 : 0 ≤ v) (h2 : v < 256) :
    pyByte v = Except.ok v.toNat := by
  unfold pyByte
  rw [if_pos ⟨h1, h2⟩]

theorem png_chunk_ok (t d : List Nat) (hd : d.length < 4294967296) :
    png_chunk t d = Except.ok (chunkBytes t d) := by
  unfold png_chunk
  rw [packU32_ok (d.length : Int) (by exact_mod_cast Nat.zero_le d.length) (by exact_mod_cast hd)]
  rfl

theorem pixelBytes_ok (r g b : Int) (hr1 : 0 ≤ r) (hr2 : r < 256) (hg1 : 0 ≤ g) (hg2 : g < 256)
    (hb1 : 0 ≤ b) (hb2 : b < 256) :
    pixelBytes r g b = Except.ok [r.toNat, g.toNat, b.toNat] := by
  unfold pixelBytes
  rw [pyByte_ok r hr1 hr2]
  simp only [ebind_ok]
  rw [pyByte_ok g hg1 hg2]
  simp only [ebind_ok]
  rw [pyByte_ok b hb1 hb2]
  simp only [ebind_ok]
  rfl

theorem rawRow_ok (w r g b : Int) (hr1 : 0 ≤ r) (hr2 : r < 256) (hg1 : 0 ≤ g) (hg2 : g < 256)
    (hb1 : 0 ≤ b) (hb2 : b < 256) :
    rawRow w r g b =
      Except.ok (0 :: (List.replicate w.toNat [r.toNat, g.toNat, b.toNat]).flatten) := by
  unfold rawRow
  simp only [pixelBytes_ok r g b hr1 hr2 hg1 hg2 hb1 hb2]
  rw [mapM_const_ok]
  simp only [ebind_ok, List.map_const', List.length_range]
  rfl

theorem rawData_ok (w h r g b : Int) (hr1 : 0 ≤ r) (hr2 : r < 256) (hg1 : 0 ≤ g) (hg2 : g < 256)
    (hb1 : 0 ≤ b) (hb2 : b < 256) :
    rawData w h r g b =
      Except.ok (solidRaw w.toNat h.toNat r.toNat g.toNat b.toNat) := by
  unfold rawData
  simp only [rawRow_ok w r g b hr1 hr2 hg1 hg2 hb1 hb2]
  rw [mapM_const_ok]
  simp only [ebind_ok, List.map_const', List.length_range]
  rfl

/-! ## Success of the encoder inside its operating envelope -/

theorem buildPng_ok (w h r g b : Int) (hw1 : 0 ≤ w) (hw2 : w < 4294967296)
    (hh1 : 0 ≤ h) (hh2 : h < 4294967296)
    (hr1 : 0 ≤ r) (hr2 : r < 256) (hg1 : 0 ≤ g) (hg2 : g < 256)
    (hb1 : 0 ≤ b) (hb2 : b < 256)
    (hsize : h.toNat * (1 + 3 * w.toNat) ≤ 2147483648) :
    buildPng w h (r, g, b) =
      Except.ok (pngSignature ++
        (chunkBytes ihdrType (u32be w.toNat ++ u32be h.toNat ++ [8, 2, 0, 0, 0]) ++
         (chunkBytes idatType
            (zlibCompress (solidRaw w.toNat h.toNat r.toNat g.toNat b.toNat)) ++
          chunkBytes iendType []))) := by
  have hcomplen :
      (zlibCompress (solidRaw w.toNat h.toNat r.toNat g.toNat b.toNat)).length
        < 4294967296 := by
    have hrawlen : (solidRaw w.toNat h.toNat r.toNat g.toNat b.toNat).length ≤ 2147483648 := by
      rw [solidRaw_length]
      exact hsize
    have hc := zlibCompress_length_le (solidRaw w.toNat h.toNat r.toNat g.toNat b.toNat)
    omega
  have hihdr : (u32be w.toNat ++ u32be h.toNat ++ [8, 2, 0, 0, 0]).length < 4294967296 := by
    simp only [List.length_append, length_u32be, List.length_cons, List.length_nil]
    omega
  have hiend : ([] : List Nat).length < 4294967296 := by
    simp
  show (packU32 w >>= fun bw => packU32 h >>= fun bh =>
      png_chunk ihdrType (bw ++ bh ++ [8, 2, 0, 0, 0]) >>= fun ihdr =>
      rawData w h r g b >>= fun raw_data =>
      png_chunk idatType (zlibCompress raw_data) >>= fun idat =>
      png_chunk iendType [] >>= fun iend =>
      pure (pngSignature ++ (ihdr ++ (idat ++ iend)))) = _
  rw [packU32_ok w hw1 hw2, ebind_ok]
  rw [packU32_ok h hh1 hh2, ebind_ok]
  rw [png_chunk_ok ihdrType (u32be w.toNat ++ u32be h.toNat ++ [8, 2, 0, 0, 0]) hihdr, ebind_ok]
  rw [rawData_ok w h r g b hr1 hr2 hg1 hg2 hb1 hb2, ebind_ok]
  rw [png_chunk_ok idatType _ hcomplen, ebind_ok]
  rw [png_chunk_ok iendType [] hiend, ebind_ok]
  rfl

/-! ## Scanline reconstruction -/

theorem parsePixels_solid (w r g b : Nat) (s : List Nat) :
    parsePixels w ((List.replicate w [r, g, b]).flatten ++ s) =
      some (List.replicate w (r, g, b, 255), s) := by
  induction w with
  | zero => simp [parsePixels]
  | succ k ih =>
    rw [List.replicate_succ, List.flatten_cons]
    simp only [List.cons_append, List.append_assoc, List.nil_append]
    simp only [parsePixels]
    rw [ih]
    simp [List.replicate_succ]

theorem parseRowsAux_solid (h w r g b : Nat) :
    parseRowsAux h w (solidRaw w h r g b) =
      some (List.replicate h (List.replicate w (r, g, b, 255))) := by
  induction h with
  | zero => simp [solidRaw, parseRowsAux]
  | succ k ih =>
    have hrow : solidRaw w (k + 1) r g b =
        0 :: ((List.replicate w [r, g, b]).flatten ++ solidRaw w k r g b) := by
      simp [solidRaw, List.replicate_succ, List.flatten_cons, List.cons_append]
    rw [hrow]
    simp only [parseRowsAux]
    rw [parsePixels_solid]
    show (match parseRowsAux k w (solidRaw w k r g b) with
          | some rows => some (List.replicate w (r, g, b, 255) :: rows)
          | none => none) =
        some (List.replicate (k + 1) (List.replicate w (r, g, b, 255)))
    rw [ih]
    simp [List.replicate_succ]

/-! ## The emitted stream decodes to the solid-colour image -/

theorem decodePng_solid (w h r g b : Int)
    (hw1 : 1 ≤ w) (hh1 : 1 ≤ h) (hw2 : w < 4294967296) (hh2 : h < 4294967296)
    (hr1 : 0 ≤ r) (hr2 : r < 256) (hg1 : 0 ≤ g) (hg2 : g < 256)
    (hb1 : 0 ≤ b) (hb2 : b < 256)
    (hsize : h.toNat * (1 + 3 * w.toNat) ≤ 2147483648) :
    decodePng (pngSignature ++
        (chunkBytes ihdrType (u32be w.toNat ++ u32be h.toNat ++ [8, 2, 0, 0, 0]) ++
         (chunkBytes idatType
            (zlibCompress (solidRaw w.toNat h.toNat r.toNat g.toNat b.toNat)) ++
          chunkBytes iendType []))) =
      some (w.toNat, h.toNat,
        List.replicate h.toNat (List.replicate w.toNat (r.toNat, g.toNat, b.toNat, 255))) := by
  have hWlt : w.toNat < 4294967296 := by omega
  have hHlt : h.toNat < 4294967296 := by omega
  have hRlt : r.toNat < 256 := by omega
  have hGlt : g.toNat < 256 := by omega
  have hBlt : b.toNat < 256 := by omega
  set d1 := u32be w.toNat ++ u32be h.toNat ++ [8, 2, 0, 0, 0] with hd1def
  set raw := solidRaw w.toNat h.toNat r.toNat g.toNat b.toNat with hrawdef
  set comp := zlibCompress raw with hcompdef
  have hd1len : d1.length = 13 := by
    rw [hd1def]
    simp [List.length_append, length_u32be]
  have hcomplt : comp.length < 4294967296 := by
    rw [hcompdef]
    have hrawlen : raw.length ≤ 2147483648 := by
      rw [hrawdef, solidRaw_length]
      exact hsize
    have hc := zlibCompress_length_le raw
    omega
  have hd1bytes : ∀ x ∈ d1, x < 256 := by
    rw [hd1def]
    intro x hx
    rcases List.mem_append.mp hx with hx | hx
    · rcases List.mem_append.mp hx with hx | hx
      · exact u32be_bytes_lt _ x hx
      · exact u32be_bytes_lt _ x hx
    · simp only [List.mem_cons, List.not_mem_nil, or_false] at hx
      rcases hx with rfl | rfl | rfl | rfl | rfl <;> omega
  have hrawbytes : ∀ x ∈ raw, x < 256 := by
    rw [hrawdef]
    exact solidRaw_bytes_lt _ _ _ _ _ hRlt hGlt hBlt
  have hcompbytes : ∀ x ∈ comp, x < 256 := by
    rw [hcompdef]
    exact zlibCompress_bytes_lt raw hrawbytes
  have htb1 : ∀ x ∈ ihdrType, x < 256 := by decide
  have htb2 : ∀ x ∈ idatType, x < 256 := by decide
  have hcrc1 : crc32 (ihdrType ++ d1) < 4294967296 :=
    crc32_lt _ (fun x hx => (List.mem_append.mp hx).elim (htb1 x) (hd1bytes x))
  have hcrc2 : crc32 (idatType ++ comp) < 4294967296 :=
    crc32_lt _ (fun x hx => (List.mem_append.mp hx).elim (htb2 x) (hcompbytes x))
  have hcrc3 : crc32 iendType < 4294967296 := crc32_lt _ (by decide)
  set B := pngSignature ++
      (chunkBytes ihdrType d1 ++ (chunkBytes idatType comp ++ chunkBytes iendType []))
    with hBdef
  have htake8 : B.take 8 = pngSignature := by
    rw [hBdef]
    exact List.take_left' rfl
  have hdrop8 : B.drop 8 =
      chunkBytes ihdrType d1 ++ (chunkBytes idatType comp ++ chunkBytes iendType []) := by
    rw [hBdef]
    exact List.drop_left' rfl
  have hparse : parseChunks (B.drop 8) =
      some [⟨ihdrType, d1, crc32 (ihdrType ++ d1) % 4294967296⟩,
            ⟨idatType, comp, crc32 (idatType ++ comp) % 4294967296⟩,
            ⟨iendType, [], crc32 (iendType ++ []) % 4294967296⟩] := by
    rw [hdrop8]
    exact parseChunks_three ihdrType d1 idatType comp iendType [] rfl rfl rfl
      (by omega) hcomplt (by norm_num)
  have hok1 : chunkOk ⟨ihdrType, d1, crc32 (ihdrType ++ d1) % 4294967296⟩ = true := by
    simp [chunkOk, Nat.mod_eq_of_lt hcrc1]
  have hok2 : chunkOk ⟨idatType, comp, crc32 (idatType ++ comp) % 4294967296⟩ = true := by
    simp [chunkOk, Nat.mod_eq_of_lt hcrc2]
  have hok3 : chunkOk ⟨iendType, [], crc32 iendType % 4294967296⟩ = true := by
    simp [chunkOk, Nat.mod_eq_of_lt hcrc3]
  have hbeW : beToNat (d1.take 4) = w.toNat := by
    rw [hd1def, List.append_assoc, List.take_left' (length_u32be _), beToNat_u32be _ hWlt]
  have hdr4 : d1.drop 4 = u32be h.toNat ++ [8, 2, 0, 0, 0] := by
    rw [hd1def, List.append_assoc]
    exact List.drop_left' (length_u32be _)
  have hbeH : beToNat ((d1.drop 4).take 4) = h.toNat := by
    rw [hdr4, List.take_left' (length_u32be _), beToNat_u32be _ hHlt]
  have hdr8 : d1.drop 8 = [8, 2, 0, 0, 0] := by
    rw [show (8 : Nat) = 4 + 4 from rfl, ← List.drop_drop 4 4 d1, hdr4]
    exact List.drop_left' (length_u32be _)
  have hWne : w.toNat ≠ 0 := by omega
  have hHne : h.toNat ≠ 0 := by omega
  have hzlib : zlibDecompress comp = some raw := by
    rw [hcompdef]
    exact zlibDecompress_zlibCompress raw
  have hrows : parseRowsAux h.toNat w.toNat raw =
      some (List.replicate h.toNat (List.replicate w.toNat (r.toNat, g.toNat, b.toNat, 255))) := by
    rw [hrawdef]
    exact parseRowsAux_solid h.toNat w.toNat r.toNat g.toNat b.toNat
  have hlast : ∀ (c2 c3 : PngChunk), [c2, c3].getLast? = some c3 := fun _ _ => rfl
  have hdropl : ∀ (c2 c3 : PngChunk), [c2, c3].dropLast = [c2] := fun _ _ => rfl
  unfold decodePng
  simp only [htake8, hparse, hok1, hok2, hok3, hd1len, hdr8, hbeW, hbeH,
    List.all_cons, List.all_nil, List.map_cons, List.map_nil, List.flatten_cons,
    List.flatten_nil, List.append_nil, Bool.and_true, Bool.and_self, beq_self_eq_true,
    eq_self_iff_true, if_true, true_and, and_true, and_self, ne_eq,
    hlast, hdropl, Option.map_some']
  simp [hWne, hHne, hzlib, hrows]

/-! ## Error paths of the encoder -/

theorem packU32_error (v : Int) (h : ¬(0 ≤ v ∧ v < 4294967296)) :
    packU32 v = Except.error PyErr.structError := by
  unfold packU32
  rw [if_neg h]

theorem pyByte_error (v : Int) (h : ¬(0 ≤ v ∧ v < 256)) :
    pyByte v = Except.error PyErr.valueError := by
  unfold pyByte
  rw [if_neg h]

theorem png_chunk_error (t d : List Nat) (hd : ¬ d.length < 4294967296) :
    png_chunk t d = Except.error PyErr.structError := by
  unfold png_chunk
  rw [packU32_error (d.length : Int) (by
    intro hc
    exact hd (by exact_mod_cast hc.2))]
  rfl

theorem pixelBytes_error (r g b : Int)
    (h : ¬(0 ≤ r ∧ r < 256 ∧ 0 ≤ g ∧ g < 256 ∧ 0 ≤ b ∧ b < 256)) :
    pixelBytes r g b = Except.error PyErr.valueError := by
  unfold pixelBytes
  by_cases hr : 0 ≤ r ∧ r < 256
  · rw [pyByte_ok r hr.1 hr.2]
    simp only [ebind_ok]
    by_cases hg : 0 ≤ g ∧ g < 256
    · rw [pyByte_ok g hg.1 hg.2]
      simp only [ebind_ok]
      rw [pyByte_error b (by tauto)]
      rfl
    · rw [pyByte_error g hg]
      rfl
  · rw [pyByte_error r hr]
    rfl

theorem rawRow_error (w r g b : Int) (hw : 1 ≤ w)
    (h : ¬(0 ≤ r ∧ r < 256 ∧ 0 ≤ g ∧ g < 256 ∧ 0 ≤ b ∧ b < 256)) :
    rawRow w r g b = Except.error PyErr.valueError := by
  unfold rawRow
  simp only [pixelBytes_error r g b h]
  rw [mapM_const_error _ _ (by
    simp only [ne_eq, List.range_eq_nil]
    omega)]
  rfl

theorem rawData_error (w h r g b : Int) (hw : 1 ≤ w) (hh : 1 ≤ h)
    (hcol : ¬(0 ≤ r ∧ r < 256 ∧ 0 ≤ g ∧ g < 256 ∧ 0 ≤ b ∧ b < 256)) :
    rawData w h r g b = Except.error PyErr.valueError := by
  unfold rawData
  simp only [rawRow_error w r g b hw hcol]
  rw [mapM_const_error _ _ (by
    simp only [ne_eq, List.range_eq_nil]
    omega)]
  rfl

theorem buildPng_valueError (w h r g b : Int) (hw1 : 1 ≤ w) (hw2 : w < 4294967296)
    (hh1 : 1 ≤ h) (hh2 : h < 4294967296)
    (hcol : ¬(0 ≤ r ∧ r < 256 ∧ 0 ≤ g ∧ g < 256 ∧ 0 ≤ b ∧ b < 256)) :
    buildPng w h (r, g, b) = Except.error PyErr.valueError := by
  show (packU32 w >>= fun bw => packU32 h >>= fun bh =>
      png_chunk ihdrType (bw ++ bh ++ [8, 2, 0, 0, 0]) >>= fun ihdr =>
      rawData w h r g b >>= fun raw_data =>
      png_chunk idatType (zlibCompress raw_data) >>= fun idat =>
      png_chunk iendType [] >>= fun iend =>
      pure (pngSignature ++ (ihdr ++ (idat ++ iend)))) = _
  rw [packU32_ok w (by omega) hw2, ebind_ok]
  rw [packU32_ok h (by omega) hh2, ebind_ok]
  rw [png_chunk_ok ihdrType (u32be w.toNat ++ u32be h.toNat ++ [8, 2, 0, 0, 0])
    (by simp only [List.length_append, length_u32be, List.length_cons, List.length_nil]
        omega), ebind_ok]
  rw [rawData_error w h r g b hw1 hh1 hcol]
  rfl

theorem buildPng_not_valueError (w h r g b : Int)
    (hr1 : 0 ≤ r) (hr2 : r < 256) (hg1 : 0 ≤ g) (hg2 : g < 256)
    (hb1 : 0 ≤ b) (hb2 : b < 256) :
    buildPng w h (r, g, b) ≠ Except.error PyErr.valueError := by
  show (packU32 w >>= fun bw => packU32 h >>= fun bh =>
      png_chunk ihdrType (bw ++ bh ++ [8, 2, 0, 0, 0]) >>= fun ihdr =>
      rawData w h r g b >>= fun raw_data =>
      png_chunk idatType (zlibCompress raw_data) >>= fun idat =>
      png_chunk iendType [] >>= fun iend =>
      pure (pngSignature ++ (ihdr ++ (idat ++ iend)))) ≠ _
  by_cases hw : 0 ≤ w ∧ w < 4294967296
  · rw [packU32_ok w hw.1 hw.2, ebind_ok]
    by_cases hh : 0 ≤ h ∧ h < 4294967296
    · rw [packU32_ok h hh.1 hh.2, ebind_ok]
      rw [png_chunk_ok ihdrType (u32be w.toNat ++ u32be h.toNat ++ [8, 2, 0, 0, 0])
        (by simp only [List.length_append, length_u32be, List.length_cons, List.length_nil]
            omega), ebind_ok]
      rw [rawData_ok w h r g b hr1 hr2 hg1 hg2 hb1 hb2, ebind_ok]
      by_cases hc : (zlibCompress (solidRaw w.toNat h.toNat r.toNat g.toNat b.toNat)).length
          < 4294967296
      · rw [png_chunk_ok idatType _ hc, ebind_ok]
        rw [png_chunk_ok iendType [] (by simp), ebind_ok]
        simp [pure, Except.pure]
      · rw [png_chunk_error idatType _ hc, ebind_error]
        simp
    · rw [packU32_error h hh, ebind_error]
      simp
  · rw [packU32_error w hw, ebind_error]
    simp

theorem buildPng_structError_neg (w h : Int) (rgb : Int × Int × Int) (hw : w < 0) :
    buildPng w h rgb = Except.error PyErr.structError := by
  show (packU32 w >>= fun bw => packU32 h >>= fun bh =>
      png_chunk ihdrType (bw ++ bh ++ [8, 2, 0, 0, 0]) >>= fun ihdr =>
      rawData w h rgb.1 rgb.2.1 rgb.2.2 >>= fun raw_data =>
      png_chunk idatType (zlibCompress raw_data) >>= fun idat =>
      png_chunk iendType [] >>= fun iend =>
      pure (pngSignature ++ (ihdr ++ (idat ++ iend)))) = _
  rw [packU32_error w (by omega), ebind_error]

/-! ## create_png as build-then-write -/

theorem create_png_of_buildPng_ok (w h : Int) (rgb : Int × Int × Int)
    (path : List String) (B : List Nat) (hB : buildPng w h rgb = Except.ok B) :
    create_png w h rgb path =
      Except.ok [FsOp.makedirs path.dropLast, FsOp.write path B] := by
  show (buildPng w h rgb >>= fun bytes =>
      pure [FsOp.makedirs path.dropLast, FsOp.write path bytes]) = _
  rw [hB, ebind_ok]
  rfl

theorem create_png_of_buildPng_error (w h : Int) (rgb : Int × Int × Int)
    (path : List String) (e : PyErr) (hB : buildPng w h rgb = Except.error e) :
    create_png w h rgb path = Except.error e := by
  show (buildPng w h rgb >>= fun bytes =>
      pure [FsOp.makedirs path.dropLast, FsOp.write path bytes]) = _
  rw [hB, ebind_error]

theorem create_png_ok_inv (w h : Int) (rgb : Int × Int × Int) (path : List String)
    (ops : List FsOp) (hok : create_png w h rgb path = Except.ok ops) :
    ∃ B, buildPng w h rgb = Except.ok B ∧
      ops = [FsOp.makedirs path.dropLast, FsOp.write path B] := by
  cases hB : buildPng w h rgb with
  | error e =>
    rw [create_png_of_buildPng_error w h rgb path e hB] at hok
    exact absurd hok (by simp)
  | ok B =>
    rw [create_png_of_buildPng_ok w h rgb path B hB] at hok
    simp only [Except.ok.injEq] at hok
    exact ⟨B, rfl, hok.symm⟩

/-! ## Structural facts about the emitted stream -/

theorem png_stream_facts (w h r g b : Int)
    (hw1 : 1 ≤ w) (hh1 : 1 ≤ h) (hw2 : w < 4294967296) (hh2 : h < 4294967296)
    (hr1 : 0 ≤ r) (hr2 : r < 256) (hg1 : 0 ≤ g) (hg2 : g < 256)
    (hb1 : 0 ≤ b) (hb2 : b < 256)
    (hsize : h.toNat * (1 + 3 * w.toNat) ≤ 2147483648) :
    ∃ B, buildPng w h (r, g, b) = Except.ok B ∧
      B.take 8 = pngSignature ∧
      B.drop 8 = chunkBytes ihdrType (u32be w.toNat ++ u32be h.toNat ++ [8, 2, 0, 0, 0]) ++
        (chunkBytes idatType
            (zlibCompress (solidRaw w.toNat h.toNat r.toNat g.toNat b.toNat)) ++
         chunkBytes iendType []) ∧
      parseChunks (B.drop 8) =
        some [⟨ihdrType, u32be w.toNat ++ u32be h.toNat ++ [8, 2, 0, 0, 0],
                crc32 (ihdrType ++ (u32be w.toNat ++ u32be h.toNat ++ [8, 2, 0, 0, 0]))⟩,
              ⟨idatType, zlibCompress (solidRaw w.toNat h.toNat r.toNat g.toNat b.toNat),
                crc32 (idatType ++
                  zlibCompress (solidRaw w.toNat h.toNat r.toNat g.toNat b.toNat))⟩,
              ⟨iendType, [], crc32 (iendType ++ [])⟩] ∧
      crc32 (ihdrType ++ (u32be w.toNat ++ u32be h.toNat ++ [8, 2, 0, 0, 0])) < 4294967296 ∧
      crc32 (idatType ++
        zlibCompress (solidRaw w.toNat h.toNat r.toNat g.toNat b.toNat)) < 4294967296 := by
  have hRlt : r.toNat < 256 := by omega
  have hGlt : g.toNat < 256 := by omega
  have hBlt : b.toNat < 256 := by omega
  set d1 := u32be w.toNat ++ u32be h.toNat ++ [8, 2, 0, 0, 0] with hd1def
  set raw := solidRaw w.toNat h.toNat r.toNat g.toNat b.toNat with hrawdef
  set comp := zlibCompress raw with hcompdef
  have hcomplt : comp.length < 4294967296 := by
    rw [hcompdef]
    have hrawlen : raw.length ≤ 2147483648 := by
      rw [hrawdef, solidRaw_length]
      exact hsize
    have hc := zlibCompress_length_le raw
    omega
  have hd1bytes : ∀ x ∈ d1, x < 256 := by
    rw [hd1def]
    intro x hx
    rcases List.mem_append.mp hx with hx | hx
    · rcases List.mem_append.mp hx with hx | hx
      · exact u32be_bytes_lt _ x hx
      · exact u32be_bytes_lt _ x hx
    · simp only [List.mem_cons, List.not_mem_nil, or_false] at hx
      rcases hx with rfl | rfl | rfl | rfl | rfl <;> omega
  have htb1 : ∀ x ∈ ihdrType, x < 256 := by decide
  have htb2 : ∀ x ∈ idatType, x < 256 := by decide
  have hcompbytes : ∀ x ∈ comp, x < 256 := by
    rw [hcompdef]
    exact zlibCompress_bytes_lt raw (by
      rw [hrawdef]
      exact solidRaw_bytes_lt _ _ _ _ _ hRlt hGlt hBlt)
  have hcrc1 : crc32 (ihdrType ++ d1) < 4294967296 :=
    crc32_lt _ (fun x hx => (List.mem_append.mp hx).elim (htb1 x) (hd1bytes x))
  have hcrc2 : crc32 (idatType ++ comp) < 4294967296 :=
    crc32_lt _ (fun x hx => (List.mem_append.mp hx).elim (htb2 x) (hcompbytes x))
  have hcrc3 : crc32 (iendType ++ []) < 4294967296 := by
    apply crc32_lt
    decide
  have hdrop : (pngSignature ++
      (chunkBytes ihdrType d1 ++ (chunkBytes idatType comp ++ chunkBytes iendType []))).drop 8 =
      chunkBytes ihdrType d1 ++ (chunkBytes idatType comp ++ chunkBytes iendType []) :=
    List.drop_left' rfl
  refine ⟨pngSignature ++
      (chunkBytes ihdrType d1 ++ (chunkBytes idatType comp ++ chunkBytes iendType [])),
    buildPng_ok w h r g b (by omega) hw2 (by omega) hh2 hr1 hr2 hg1 hg2 hb1 hb2 hsize,
    List.take_left' rfl, hdrop, ?_, hcrc1, hcrc2⟩
  rw [hdrop]
  rw [parseChunks_three ihdrType d1 idatType comp iendType [] rfl rfl rfl
    (by rw [hd1def]; simp [List.length_append, length_u32be]) hcomplt (by norm_num)]
  rw [Nat.mod_eq_of_lt hcrc1, Nat.mod_eq_of_lt hcrc2, Nat.mod_eq_of_lt hcrc3]

/-! ## Filesystem semantics of a successful run -/

theorem runOps_create (fs : FS) (path : List String) (B : List Nat)
    (hp : 2 ≤ path.length) :
    ∃ fs2, runOps fs [FsOp.makedirs path.dropLast, FsOp.write path B] = some fs2 ∧
      (∀ k, k < path.dropLast.length → path.dropLast.take (k + 1) ∈ fs2.dirs) ∧
      path.dropLast ∈ fs2.dirs ∧ (path, B) ∈ fs2.files := by
  have hdl : path.dropLast.length = path.length - 1 := List.length_dropLast path
  have hne : path.dropLast ≠ [] := by
    intro h0
    rw [h0] at hdl
    simp at hdl
    omega
  set P := path.dropLast with hPdef
  set fs1 : FS := ⟨((List.range P.length).map fun k => P.take (k + 1)) ++ fs.dirs, fs.files⟩
    with hfs1
  have hm : mkdirsFS fs P = some fs1 := by
    unfold mkdirsFS
    rw [if_neg hne]
  have hinter : ∀ k, k < P.length → P.take (k + 1) ∈ fs1.dirs := by
    intro k hk
    apply List.mem_append.mpr
    left
    exact List.mem_map.mpr ⟨k, List.mem_range.mpr hk, rfl⟩
  have hPmem : P ∈ fs1.dirs := by
    have := hinter (P.length - 1) (by
      have : P.length ≠ 0 := fun hz => hne (List.length_eq_zero.mp hz)
      omega)
    rwa [show P.length - 1 + 1 = P.length from by
        have : P.length ≠ 0 := fun hz => hne (List.length_eq_zero.mp hz)
        omega,
      List.take_length] at this
  have hw : writeFS fs1 path B = some ⟨fs1.dirs, (path, B) :: fs1.files⟩ := by
    unfold writeFS
    rw [if_pos (Or.inr hPmem)]
  refine ⟨⟨fs1.dirs, (path, B) :: fs1.files⟩, ?_, hinter, hPmem, by simp⟩
  show (match runOp fs (FsOp.makedirs P) with
        | some fs2 => runOps fs2 [FsOp.write path B]
        | none => none) = _
  rw [show runOp fs (FsOp.makedirs P) = mkdirsFS fs P from rfl, hm]
  show (match runOp fs1 (FsOp.write path B) with
        | some fs2 => runOps fs2 []
        | none => none) = _
  rw [show runOp fs1 (FsOp.write path B) = writeFS fs1 path B from rfl, hw]
  rfl

theorem create_png_error_inv (w h : Int) (rgb : Int × Int × Int) (path : List String)
    (e : PyErr) (herr : create_png w h rgb path = Except.error e) :
    buildPng w h rgb = Except.error e := by
  cases hB : buildPng w h rgb with
  | ok B =>
    rw [create_png_of_buildPng_ok w h rgb path B hB] at herr
    exact absurd herr (by simp)
  | error e2 =>
    rw [create_png_of_buildPng_error w h rgb path e2 hB] at herr
    simp only [Except.error.injEq] at herr
    rw [herr]

/-! ## Claims -/

/-- C1 counterexample: the claim quantifies over every width W ≥ 1, but at
W = 2^32 (with H = 1 and a valid colour) `create_png` raises `struct.error`
from packing the IHDR width field and produces no byte stream at all, so no
decoder can recover a 2^32-pixel-wide image from its output. -/
theorem create_png_width_2pow32_no_output :
    create_png 4294967296 1 (0, 150, 136) ["root", "icon.png"] =
      Except.error PyErr.structError := by
  rfl

/-- C1 (amended): for every width and height with 1 ≤ W, H < 2^32, raw
buffer H·(1+3·W) of at most 2^31 bytes (so every chunk payload length fits
its 4-byte field), and each colour channel in [0,255], `create_png`
succeeds and the byte stream it writes is decoded by the conforming PNG
decoder model to exactly W×H pixels, every pixel equal to the input colour
with full opacity (alpha 255). -/
theorem create_png_decodes_to_solid (w h r g b : Int) (path : List String)
    (hw1 : 1 ≤ w) (hh1 : 1 ≤ h) (hw2 : w < 4294967296) (hh2 : h < 4294967296)
    (hr1 : 0 ≤ r) (hr2 : r ≤ 255) (hg1 : 0 ≤ g) (hg2 : g ≤ 255)
    (hb1 : 0 ≤ b) (hb2 : b ≤ 255)
    (hsize : h.toNat * (1 + 3 * w.toNat) ≤ 2147483648) :
    ∃ B ops, buildPng w h (r, g, b) = Except.ok B ∧
      create_png w h (r, g, b) path = Except.ok ops ∧
      decodePng B = some (w.toNat, h.toNat,
        List.replicate h.toNat (List.replicate w.toNat (r.toNat, g.toNat, b.toNat, 255))) := by
  have hB := buildPng_ok w h r g b (by omega) hw2 (by omega) hh2
    hr1 (by omega) hg1 (by omega) hb1 (by omega) hsize
  exact ⟨_, _, hB, create_png_of_buildPng_ok w h (r, g, b) path _ hB,
    decodePng_solid w h r g b hw1 hh1 hw2 hh2
      hr1 (by omega) hg1 (by omega) hb1 (by omega) hsize⟩

/-- C1 witness at W = H = 1 and the teal colour. -/
theorem create_png_decodes_to_solid_witness :
    ∃ B ops, buildPng 1 1 (0, 150, 136) = Except.ok B ∧
      create_png 1 1 (0, 150, 136) ["root", "icon.png"] = Except.ok ops ∧
      decodePng B = some (1, 1, List.replicate 1 (List.replicate 1 (0, 150, 136, 255))) :=
  create_png_decodes_to_solid 1 1 0 150 136 ["root", "icon.png"]
    (by decide) (by decide) (by decide) (by decide) (by decide) (by decide)
    (by decide) (by decide) (by decide) (by decide) (by decide)

/-- C2 counterexample: `create_png` with width 0 does not fail at all — no
`InvalidDimension` error exists in the code — and it proceeds to create the
destination directory and write the (malformed, zero-pixel) file: the
result is `ok` and carries both filesystem operations. -/
theorem create_png_width_zero_writes_file :
    (create_png 0 1 (0, 150, 136) ["root", "icon.png"]).isOk = true ∧
    (create_png 0 1 (0, 150, 136) ["root", "icon.png"]).toOption.getD [] =
      [FsOp.makedirs ["root"],
       FsOp.write ["root", "icon.png"] ((buildPng 0 1 (0, 150, 136)).toOption.getD [])] :=
  ⟨by decide, by rfl⟩

/-- C2 (amended): `create_png` performs no dimension validation: width 0 or
height 0 (with in-range dimensions and a valid colour) succeeds and writes
a degenerate file, while a negative width fails with `struct.error` from
`struct.pack` — not with an `InvalidDimension` error, which does not exist
in the code. -/
theorem create_png_no_dimension_validation (w h w2 : Int) (path : List String)
    (hw1 : 0 ≤ w) (hw2 : w < 4294967296) (hh1 : 0 ≤ h) (hh2 : h ≤ 2147483648)
    (hneg : w2 < 0) :
    (create_png w 0 (0, 150, 136) path).isOk = true ∧
    (create_png 0 h (0, 150, 136) path).isOk = true ∧
    create_png w2 h (0, 150, 136) path = Except.error PyErr.structError := by
  refine ⟨?_, ?_, ?_⟩
  · have hB := buildPng_ok w 0 0 150 136 hw1 hw2 (by norm_num) (by norm_num)
      (by norm_num) (by norm_num) (by norm_num) (by norm_num) (by norm_num) (by norm_num)
      (by simp)
    rw [create_png_of_buildPng_ok w 0 (0, 150, 136) path _ hB]
    rfl
  · have hB := buildPng_ok 0 h 0 150 136 (by norm_num) (by norm_num) hh1 (by omega)
      (by norm_num) (by norm_num) (by norm_num) (by norm_num) (by norm_num) (by norm_num)
      (by simp; omega)
    rw [create_png_of_buildPng_ok 0 h (0, 150, 136) path _ hB]
    rfl
  · exact create_png_of_buildPng_error w2 h (0, 150, 136) path _
      (buildPng_structError_neg w2 h (0, 150, 136) hneg)

/-- C2 witness: width 5 with height 0, width 0 with height 5, and the
negative width -1. -/
theorem create_png_no_dimension_validation_witness :
    (create_png 5 0 (0, 150, 136) ["root", "icon.png"]).isOk = true ∧
    (create_png 0 5 (0, 150, 136) ["root", "icon.png"]).isOk = true ∧
    create_png (-1) 5 (0, 150, 136) ["root", "icon.png"] =
      Except.error PyErr.structError :=
  create_png_no_dimension_validation 5 5 (-1) ["root", "icon.png"]
    (by decide) (by decide) (by decide) (by decide) (by decide)

/-- C10 counterexample: with width 0 the pixel loop body never runs, so an
out-of-range colour component (here 300) raises no error at all: the call
succeeds and the file is still written. -/
theorem create_png_color_unchecked_width_zero :
    (create_png 0 1 (300, 0, 0) ["root", "icon.png"]).isOk = true := by
  decide

/-- C10 (amended): for width and height at least 1 (and within the 4-byte
header range), a colour component outside [0,255] makes `create_png` fail
with `ValueError` during pixel-byte construction, before any filesystem
operation is produced; with all components in [0,255] that error branch is
unreachable. -/
theorem create_png_color_validation (w h r g b : Int) (path : List String)
    (hw1 : 1 ≤ w) (hw2 : w < 4294967296) (hh1 : 1 ≤ h) (hh2 : h < 4294967296) :
    (¬(0 ≤ r ∧ r ≤ 255 ∧ 0 ≤ g ∧ g ≤ 255 ∧ 0 ≤ b ∧ b ≤ 255) →
      create_png w h (r, g, b) path = Except.error PyErr.valueError) ∧
    ((0 ≤ r ∧ r ≤ 255 ∧ 0 ≤ g ∧ g ≤ 255 ∧ 0 ≤ b ∧ b ≤ 255) →
      create_png w h (r, g, b) path ≠ Except.error PyErr.valueError) := by
  constructor
  · intro hcol
    exact create_png_of_buildPng_error w h (r, g, b) path _
      (buildPng_valueError w h r g b hw1 hw2 hh1 hh2 (fun hc => hcol (by omega)))
  · intro hcol hcontra
    exact buildPng_not_valueError w h r g b hcol.1 (by omega) hcol.2.2.1 (by omega)
      hcol.2.2.2.2.1 (by omega) (create_png_error_inv w h (r, g, b) path _ hcontra)

/-- C10 witness: red component 300 at a 1×1 image fails with ValueError. -/
theorem create_png_color_validation_witness :
    create_png 1 1 (300, 0, 0) ["root", "icon.png"] = Except.error PyErr.valueError :=
  (create_png_color_validation 1 1 300 0 0 ["root", "icon.png"]
    (by decide) (by decide) (by decide) (by decide)).1 (by decide)

/-- C3: every chunk the encoder emits (IHDR, IDAT, IEND) is serialized as
the 4-byte big-endian payload length, the 4-byte chunk-type tag, the
payload, then a 4-byte big-endian CRC-32 over (tag ++ payload) computed by
the standard ISO 3309 CRC-32 (seed 0xFFFFFFFF, final complement); hence
every embedded CRC equals a freshly computed CRC-32 over type ++ payload. -/
theorem png_chunks_serialized_with_crc32 (w h r g b : Int)
    (hw1 : 1 ≤ w) (hh1 : 1 ≤ h) (hw2 : w < 4294967296) (hh2 : h < 4294967296)
    (hr1 : 0 ≤ r) (hr2 : r ≤ 255) (hg1 : 0 ≤ g) (hg2 : g ≤ 255)
    (hb1 : 0 ≤ b) (hb2 : b ≤ 255)
    (hsize : h.toNat * (1 + 3 * w.toNat) ≤ 2147483648) :
    ∃ B cs, buildPng w h (r, g, b) = Except.ok B ∧
      parseChunks (B.drop 8) = some cs ∧
      B.drop 8 = (cs.map (fun c =>
        u32be c.cdata.length ++ (c.ctype ++ (c.cdata ++ u32be c.ccrc)))).flatten ∧
      ∀ c ∈ cs, c.ccrc = crc32 (c.ctype ++ c.cdata) := by
  obtain ⟨B, hB, -, hdrop, hparse, hlt1, hlt2⟩ := png_stream_facts w h r g b hw1 hh1 hw2 hh2
    hr1 (by omega) hg1 (by omega) hb1 (by omega) hsize
  have hlt3 : crc32 iendType < 4294967296 := by decide
  refine ⟨B, _, hB, hparse, ?_, ?_⟩
  · rw [hdrop]
    simp only [List.map_cons, List.map_nil, List.flatten_cons, List.flatten_nil,
      List.append_nil, chunkBytes, Nat.mod_eq_of_lt hlt1, Nat.mod_eq_of_lt hlt2,
      Nat.mod_eq_of_lt hlt3]
  · intro c hc
    simp only [List.mem_cons, List.not_mem_nil, or_false] at hc
    rcases hc with rfl | rfl | rfl <;> rfl

/-- C3 witness at W = H = 1 and the teal colour. -/
theorem png_chunks_serialized_with_crc32_witness :
    ∃ B cs, buildPng 1 1 (0, 150, 136) = Except.ok B ∧
      parseChunks (B.drop 8) = some cs ∧
      B.drop 8 = (cs.map (fun c =>
        u32be c.cdata.length ++ (c.ctype ++ (c.cdata ++ u32be c.ccrc)))).flatten ∧
      ∀ c ∈ cs, c.ccrc = crc32 (c.ctype ++ c.cdata) :=
  png_chunks_serialized_with_crc32 1 1 0 150 136
    (by decide) (by decide) (by decide) (by decide) (by decide) (by decide)
    (by decide) (by decide) (by decide) (by decide) (by decide)

/-- C4: for W, H ≥ 1 and a valid colour, the raw scanline buffer built
before compression is exactly H rows, each one leading filter byte 0
followed by W pixels of the 3 bytes R, G, B, so each row is 1 + 3·W bytes
and the whole buffer is H·(1+3·W) bytes; decompressing the zlib stream the
encoder embeds in IDAT recovers exactly this buffer. -/
theorem raw_scanline_buffer_structure (w h r g b : Int)
    (_hw1 : 1 ≤ w) (_hh1 : 1 ≤ h)
    (hr1 : 0 ≤ r) (hr2 : r ≤ 255) (hg1 : 0 ≤ g) (hg2 : g ≤ 255)
    (hb1 : 0 ≤ b) (hb2 : b ≤ 255) :
    ∃ raw, rawData w h r g b = Except.ok raw ∧
      raw = (List.replicate h.toNat
        (0 :: (List.replicate w.toNat [r.toNat, g.toNat, b.toNat]).flatten)).flatten ∧
      (0 :: (List.replicate w.toNat [r.toNat, g.toNat, b.toNat]).flatten).length
        = 1 + 3 * w.toNat ∧
      raw.length = h.toNat * (1 + 3 * w.toNat) ∧
      zlibDecompress (zlibCompress raw) = some raw := by
  refine ⟨solidRaw w.toNat h.toNat r.toNat g.toNat b.toNat,
    rawData_ok w h r g b hr1 (by omega) hg1 (by omega) hb1 (by omega), rfl, ?_, ?_, ?_⟩
  · simp [List.length_flatten, List.map_replicate, List.sum_replicate, smul_eq_mul]
    omega
  · exact solidRaw_length w.toNat h.toNat r.toNat g.toNat b.toNat
  · exact zlibDecompress_zlibCompress _

/-- C4 witness at W = H = 2 and the teal colour. -/
theorem raw_scanline_buffer_structure_witness :
    ∃ raw, rawData 2 2 0 150 136 = Except.ok raw ∧
      raw = (List.replicate (2 : Int).toNat
        (0 :: (List.replicate (2 : Int).toNat
          [(0 : Int).toNat, (150 : Int).toNat, (136 : Int).toNat]).flatten)).flatten ∧
      (0 :: (List.replicate (2 : Int).toNat
          [(0 : Int).toNat, (150 : Int).toNat, (136 : Int).toNat]).flatten).length
        = 1 + 3 * (2 : Int).toNat ∧
      raw.length = (2 : Int).toNat * (1 + 3 * (2 : Int).toNat) ∧
      zlibDecompress (zlibCompress raw) = some raw :=
  raw_scanline_buffer_structure 2 2 0 150 136
    (by decide) (by decide) (by decide) (by decide) (by decide) (by decide)
    (by decide) (by decide)

/-- C5: for every valid input, the IHDR chunk is the head of the chunk
stream and its 13-byte payload is the width as 4-byte big-endian, the
height as 4-byte big-endian, then bit depth 8, colour type 2, compression
method 0, filter method 0 and interlace method 0, in that order. -/
theorem ihdr_payload_fields (w h r g b : Int)
    (hw1 : 1 ≤ w) (hh1 : 1 ≤ h) (hw2 : w < 4294967296) (hh2 : h < 4294967296)
    (hr1 : 0 ≤ r) (hr2 : r ≤ 255) (hg1 : 0 ≤ g) (hg2 : g ≤ 255)
    (hb1 : 0 ≤ b) (hb2 : b ≤ 255)
    (hsize : h.toNat * (1 + 3 * w.toNat) ≤ 2147483648) :
    ∃ B cs c, buildPng w h (r, g, b) = Except.ok B ∧
      parseChunks (B.drop 8) = some cs ∧
      cs.head? = some ⟨ihdrType, u32be w.toNat ++ u32be h.toNat ++ [8, 2, 0, 0, 0], c⟩ ∧
      (u32be w.toNat ++ u32be h.toNat ++ [8, 2, 0, 0, 0]).length = 13 := by
  obtain ⟨B, hB, -, -, hparse, -, -⟩ := png_stream_facts w h r g b hw1 hh1 hw2 hh2
    hr1 (by omega) hg1 (by omega) hb1 (by omega) hsize
  exact ⟨B, _, _, hB, hparse, rfl, by simp [List.length_append, length_u32be]⟩

/-- C5 witness at W = H = 1 and the teal colour. -/
theorem ihdr_payload_fields_witness :
    ∃ B cs c, buildPng 1 1 (0, 150, 136) = Except.ok B ∧
      parseChunks (B.drop 8) = some cs ∧
      cs.head? = some ⟨ihdrType,
        u32be (1 : Int).toNat ++ u32be (1 : Int).toNat ++ [8, 2, 0, 0, 0], c⟩ ∧
      (u32be (1 : Int).toNat ++ u32be (1 : Int).toNat ++ [8, 2, 0, 0, 0]).length = 13 :=
  ihdr_payload_fields 1 1 0 150 136
    (by decide) (by decide) (by decide) (by decide) (by decide) (by decide)
    (by decide) (by decide) (by decide) (by decide) (by decide)

/-- C6: for every valid input the byte stream starts with the exact 8-byte
PNG signature, the first chunk after the signature is IHDR, and the last
chunk is IEND with a zero-length payload. -/
theorem png_stream_structure (w h r g b : Int)
    (hw1 : 1 ≤ w) (hh1 : 1 ≤ h) (hw2 : w < 4294967296) (hh2 : h < 4294967296)
    (hr1 : 0 ≤ r) (hr2 : r ≤ 255) (hg1 : 0 ≤ g) (hg2 : g ≤ 255)
    (hb1 : 0 ≤ b) (hb2 : b ≤ 255)
    (hsize : h.toNat * (1 + 3 * w.toNat) ≤ 2147483648) :
    ∃ B cs ic, buildPng w h (r, g, b) = Except.ok B ∧
      B.take 8 = pngSignature ∧
      parseChunks (B.drop 8) = some cs ∧
      (cs.map PngChunk.ctype).head? = some ihdrType ∧
      cs.getLast? = some ic ∧ ic.ctype = iendType ∧ ic.cdata = [] := by
  obtain ⟨B, hB, htake, -, hparse, -, -⟩ := png_stream_facts w h r g b hw1 hh1 hw2 hh2
    hr1 (by omega) hg1 (by omega) hb1 (by omega) hsize
  exact ⟨B, _, _, hB, htake, hparse, rfl, rfl, rfl, rfl⟩

/-- C6 witness at W = H = 1 and the teal colour. -/
theorem png_stream_structure_witness :
    ∃ B cs ic, buildPng 1 1 (0, 150, 136) = Except.ok B ∧
      B.take 8 = pngSignature ∧
      parseChunks (B.drop 8) = some cs ∧
      (cs.map PngChunk.ctype).head? = some ihdrType ∧
      cs.getLast? = some ic ∧ ic.ctype = iendType ∧ ic.cdata = [] :=
  png_stream_structure 1 1 0 150 136
    (by decide) (by decide) (by decide) (by decide) (by decide) (by decide)
    (by decide) (by decide) (by decide) (by decide) (by decide)

/-- C7: for any script location, the orchestrator processes exactly five
icon specifications in the fixed order 48, 72, 96, 144, 192, resolves each
destination relative to the parent of the directory containing the script
(dropping the script file name and the script directory from its absolute
path), maps each size to its distinct Android density-bucket path, and
invokes the encoder with (size, size) and the literal teal (0, 150, 136). -/
theorem main_orchestration (p : List String) :
    mainScript p =
      [(48, p.dropLast.dropLast ++
          ["android", "app", "src", "main", "res", "mipmap-mdpi", "ic_launcher.png"],
        create_png 48 48 (0, 150, 136) (p.dropLast.dropLast ++
          ["android", "app", "src", "main", "res", "mipmap-mdpi", "ic_launcher.png"])),
       (72, p.dropLast.dropLast ++
          ["android", "app", "src", "main", "res", "mipmap-hdpi", "ic_launcher.png"],
        create_png 72 72 (0, 150, 136) (p.dropLast.dropLast ++
          ["android", "app", "src", "main", "res", "mipmap-hdpi", "ic_launcher.png"])),
       (96, p.dropLast.dropLast ++
          ["android", "app", "src", "main", "res", "mipmap-xhdpi", "ic_launcher.png"],
        create_png 96 96 (0, 150, 136) (p.dropLast.dropLast ++
          ["android", "app", "src", "main", "res", "mipmap-xhdpi", "ic_launcher.png"])),
       (144, p.dropLast.dropLast ++
          ["android", "app", "src", "main", "res", "mipmap-xxhdpi", "ic_launcher.png"],
        create_png 144 144 (0, 150, 136) (p.dropLast.dropLast ++
          ["android", "app", "src", "main", "res", "mipmap-xxhdpi", "ic_launcher.png"])),
       (192, p.dropLast.dropLast ++
          ["android", "app", "src", "main", "res", "mipmap-xxxhdpi", "ic_launcher.png"],
        create_png 192 192 (0, 150, 136) (p.dropLast.dropLast ++
          ["android", "app", "src", "main", "res", "mipmap-xxxhdpi", "ic_launcher.png"]))] ∧
    ((mainScript p).map (fun e => e.2.1)).Nodup := by
  constructor
  · rfl
  · have hinj : Function.Injective (fun l : List String => p.dropLast.dropLast ++ l) :=
      fun a b hab => List.append_cancel_left hab
    have hmap : (mainScript p).map (fun e => e.2.1) =
        ([["android", "app", "src", "main", "res", "mipmap-mdpi", "ic_launcher.png"],
          ["android", "app", "src", "main", "res", "mipmap-hdpi", "ic_launcher.png"],
          ["android", "app", "src", "main", "res", "mipmap-xhdpi", "ic_launcher.png"],
          ["android", "app", "src", "main", "res", "mipmap-xxhdpi", "ic_launcher.png"],
          ["android", "app", "src", "main", "res", "mipmap-xxxhdpi", "ic_launcher.png"]].map
            (fun l => p.dropLast.dropLast ++ l)) := rfl
    rw [hmap]
    exact List.Nodup.map hinj (by decide)

/-- C8: the generator is deterministic: two calls of the encoder with
equal width, height and colour produce byte-identical streams, and two
runs of the orchestrator from the same script location produce identical
results. -/
theorem generator_deterministic (w w' h h' : Int) (c c' : Int × Int × Int)
    (p p' : List String) (hw : w = w') (hh : h = h') (hc : c = c') (hp : p = p') :
    buildPng w h c = buildPng w' h' c' ∧ mainScript p = mainScript p' := by
  subst hw
  subst hh
  subst hc
  subst hp
  exact ⟨rfl, rfl⟩

/-- C8 witness at the first icon configuration. -/
theorem generator_deterministic_witness :
    buildPng 48 48 (0, 150, 136) = buildPng 48 48 (0, 150, 136) ∧
    mainScript ["root", "proj", "scripts", "generate_icons.py"] =
      mainScript ["root", "proj", "scripts", "generate_icons.py"] :=
  generator_deterministic 48 48 48 48 (0, 150, 136) (0, 150, 136)
    ["root", "proj", "scripts", "generate_icons.py"]
    ["root", "proj", "scripts", "generate_icons.py"] rfl rfl rfl rfl

/-- C9: whenever create_png succeeds, running its filesystem operations
from any filesystem state succeeds: the makedirs step first creates every
missing intermediate directory of the destination's parent (an existing
directory is not an error, and mkdirsFS never fails on a nonempty path),
so the subsequent write cannot fail for want of a parent directory, and
the file ends up written. -/
theorem create_png_ensures_directories (fs : FS) (w h : Int) (rgb : Int × Int × Int)
    (path : List String) (ops : List FsOp)
    (hlen : 2 ≤ path.length) (hok : create_png w h rgb path = Except.ok ops) :
    ∃ fs2, runOps fs ops = some fs2 ∧
      (∀ k, k < path.dropLast.length → path.dropLast.take (k + 1) ∈ fs2.dirs) ∧
      path.dropLast ∈ fs2.dirs ∧ ∃ bytes, (path, bytes) ∈ fs2.files := by
  obtain ⟨B, hB, rfl⟩ := create_png_ok_inv w h rgb path ops hok
  obtain ⟨fs2, h1, h2, h3, h4⟩ := runOps_create fs path B hlen
  exact ⟨fs2, h1, h2, h3, B, h4⟩

set_option maxRecDepth 100000 in
/-- C9 witness: a 1×1 teal icon written at a two-directory path into the
empty filesystem. -/
theorem create_png_ensures_directories_witness :
    ∃ fs2, runOps ⟨[], []⟩
        ((create_png 1 1 (0, 150, 136) ["app", "res", "icon.png"]).toOption.getD [])
        = some fs2 ∧
      (∀ k, k < (["app", "res", "icon.png"] : List String).dropLast.length →
        (["app", "res", "icon.png"] : List String).dropLast.take (k + 1) ∈ fs2.dirs) ∧
      (["app", "res", "icon.png"] : List String).dropLast ∈ fs2.dirs ∧
      ∃ bytes, ((["app", "res", "icon.png"] : List String), bytes) ∈ fs2.files :=
  create_png_ensures_directories ⟨[], []⟩ 1 1 (0, 150, 136) ["app", "res", "icon.png"]
    ((create_png 1 1 (0, 150, 136) ["app", "res", "icon.png"]).toOption.getD [])
    (by decide) (by decide)
